import Mathlib

/-!
# Verification of the NIST CVE crawler's pagination + extraction pipeline

Shallow embedding of `NistCrawler_v0.2.3.py`. Python strings are modelled as
`List Char` (Python strings are sequences of code points, so `len` and slicing
are code-point based), Python floats appearing as CVSS scores as exact
rationals `ℚ`, and the network boundary as a pure function from a
`startIndex` offset to an HTML `Response` whose relevant structure (the
total-count element, the results table, the per-row elements addressed by
`data-testid` attributes) is abstracted into records of optional stripped
texts.  Fallible Python operations (`int(...)`, `float(...)`, attribute
access on `None`, `split()[i]`) are modelled with `Option`/`Except`,
mirroring the exception types the source raises and catches.
-/

/-- A Python string: a sequence of code points. -/
abbrev PyStr := List Char

/-- The Python exception types caught by the row-level handler in
`scrape_nist_cve` (`except (IndexError, ValueError, AttributeError)`). -/
inductive PyErr where
  | indexError
  | valueError
  | attributeError
deriving Repr, DecidableEq

deriving instance DecidableEq for Except

/-- One console print performed by the pipeline, as structured data. -/
inductive LogMsg where
  | failedStatus (code : Nat)
  | noMatching
  | totalFound (total : Int)
  | noResultsOnPage (page : Nat)
  | rowError (e : PyErr)
deriving Repr, DecidableEq

/-- `s.replace(",", "")` on the total-count text. -/
def stripCommas (s : PyStr) : PyStr := s.filter (fun c => c ≠ ',')

/-- Numeric value of a list of decimal digit characters. -/
def digitsVal (ds : List Char) : Nat :=
  ds.foldl (fun a c => a * 10 + (c.toNat - 48)) 0

/-- Python `int(s)` on a comma-stripped count string: optional sign followed
by a nonempty run of decimal digits; anything else raises `ValueError`
(modelled as `none`).  (Python `int` also tolerates surrounding whitespace,
which `get_text(strip=True)` has already removed here.) -/
def pyInt? (s : PyStr) : Option Int :=
  match s with
  | '-' :: ds => if ds ≠ [] ∧ ds.all Char.isDigit then some (-(digitsVal ds : Int)) else none
  | '+' :: ds => if ds ≠ [] ∧ ds.all Char.isDigit then some (digitsVal ds) else none
  | ds => if ds ≠ [] ∧ ds.all Char.isDigit then some (digitsVal ds) else none

/-- Python `float(tok)` on the score token, over plain decimal literals
(optional sign, integer part, optional fractional part), evaluated as the
exact rational `± (intPart.fracPart) = ± (intPart * 10^k + frac) / 10^k`.
Failure (`ValueError`) is `none`.  (Python `float` also accepts exponents,
underscores, `inf`/`nan`; the scores scraped here are plain decimals such
as `9.8`.) -/
def pyFloat? (cs : PyStr) : Option ℚ :=
  let (sign, rest) : Int × PyStr :=
    match cs with
    | '-' :: r => (-1, r)
    | '+' :: r => (1, r)
    | r => (1, r)
  let intPart := rest.takeWhile Char.isDigit
  let rest2 := rest.dropWhile Char.isDigit
  match rest2 with
  | [] => if intPart = [] then none else some (Rat.divInt (sign * digitsVal intPart) 1)
  | '.' :: frac =>
    if frac.all Char.isDigit ∧ (intPart ≠ [] ∨ frac ≠ []) then
      some (Rat.divInt (sign * (digitsVal intPart * 10 ^ frac.length + digitsVal frac))
        (10 ^ frac.length))
    else none
  | _ => none

/-- Python `s.split()[0]`: first maximal run of non-whitespace characters,
`none` (an `IndexError` at the call site) when the string is all whitespace. -/
def firstToken? (cs : PyStr) : Option PyStr :=
  let t := (cs.dropWhile Char.isWhitespace).takeWhile (fun c => ¬ c.isWhitespace)
  if t = [] then none else some t

/-- `leadsWith p s` holds when `p` is an initial segment of `s`. -/
def leadsWith : PyStr → PyStr → Bool
  | [], _ => true
  | _ :: _, [] => false
  | p :: ps, c :: cs => p = c ∧ leadsWith ps cs

/-- Split a string around the first occurrence of the pattern `pat`:
`some (before, after)` when `pat` occurs, `none` otherwise.  This models
both Python's substring test `pat in s` (occurrence exists) and the pieces
produced by `s.split(pat)`. -/
def splitFirst? (pat : PyStr) : PyStr → Option (PyStr × PyStr)
  | [] => if pat = [] then some ([], []) else none
  | c :: cs =>
    if leadsWith pat (c :: cs) then some ([], (c :: cs).drop pat.length)
    else (splitFirst? pat cs).map (fun p => (c :: p.1, p.2))

/-- The fixed CVSS marker `"V3.1:"` searched for in the score element. -/
def v31marker : PyStr := "V3.1:".toList

/-- One result-row slot of a page, as the extractor addresses it: the
optional `a[data-testid=vuln-detail-link-i]` (stripped text and `href`),
the optional `p[data-testid=vuln-summary-i]` text, the optional
`span#cvss3-link` text and the optional
`span[data-testid=vuln-published-on-i]` text. -/
structure RowHtml where
  link : Option (PyStr × PyStr)
  summary : Option PyStr
  scoreSpan : Option PyStr
  published : Option PyStr
deriving Repr, DecidableEq

/-- The structure of one response page that the extractor inspects: the
optional `strong[data-testid=vuln-matching-records-count]` text and the
optional `table[data-testid=vuln-results-table]` with its row slots
(slot `i` is the optional `tr[data-testid=vuln-row-i]`). -/
structure PageHtml where
  countText : Option PyStr
  table : Option (List (Option RowHtml))
deriving Repr, DecidableEq

/-- An HTTP response: status code plus parsed body. -/
structure Response where
  status_code : Nat
  body : PageHtml
deriving Repr, DecidableEq

/-- One extracted vulnerability record (the dict appended to `all_vulns`). -/
structure Vuln where
  cve_number : PyStr
  score : ℚ
  description : PyStr
  published_date : PyStr
  url : PyStr
deriving Repr, DecidableEq

/-- The sentinel used for unextractable fields. -/
def notAvailable : PyStr := "N/A".toList

/-- Prefix prepended to the relative detail link. -/
def nvdBase : PyStr := "https://nvd.nist.gov".toList

/-- Lines 70–73: score extraction from the `span#cvss3-link` element.
`score_v3` stays `None` when the span is absent or its text does not
contain `"V3.1:"`; when the marker is present, the text segment after the
first marker (and before any second one — Python's `split("V3.1:")[1]`)
must yield a whitespace-delimited token (`IndexError` otherwise) that
parses as a float (`ValueError` otherwise). -/
def extract_score (scoreSpan : Option PyStr) : Except PyErr (Option ℚ) :=
  match scoreSpan with
  | none => .ok none
  | some t =>
    match splitFirst? v31marker t with
    | none => .ok none
    | some (_, after) =>
      let seg := match splitFirst? v31marker after with
        | some (b, _) => b
        | none => after
      match firstToken? seg with
      | none => .error .indexError
      | some tok =>
        match pyFloat? tok with
        | none => .error .valueError
        | some q => .ok (some q)

/-- Line 63: `cve_link.get_text(strip=True) if cve_link else "N/A"`. -/
def link_cve_number (rh : RowHtml) : PyStr :=
  match rh.link with
  | some l => l.1
  | none => notAvailable

/-- Line 64: `f"https://nvd.nist.gov{cve_link['href']}" if cve_link else "N/A"`. -/
def link_cve_url (rh : RowHtml) : PyStr :=
  match rh.link with
  | some l => nvdBase ++ l.2
  | none => notAvailable

/-- Lines 60–90: extraction of one row, up to the `except` handler.
The link falls back to `"N/A"` for both id and url; a missing summary
element raises `AttributeError` (`.get_text` on `None`); the published
date falls back to `"N/A"`; finally the record is appended only when the
parsed score is truthy (`if score_v3:`), i.e. not `None` and not `0.0`. -/
def extract_row (rh : RowHtml) : Except PyErr (Option Vuln) :=
  match rh.summary with
  | none => .error .attributeError
  | some description =>
    match extract_score rh.scoreSpan with
    | .error e => .error e
    | .ok score_v3 =>
      match score_v3 with
      | some s =>
        if s = 0 then .ok none
        else .ok (some ⟨link_cve_number rh, s, description,
            rh.published.getD notAvailable, link_cve_url rh⟩)
      | none => .ok none

/-- The record a row slot contributes to `all_vulns` (if any): the appended
record when extraction succeeds and passes the score gate, nothing when the
row is skipped or its exception is caught. -/
def rowRecord (rh : RowHtml) : Option Vuln :=
  match extract_row rh with
  | .ok (some v) => some v
  | _ => none

/-- The console output a row slot produces: the error line printed by the
`except` handler, nothing otherwise. -/
def rowLog (rh : RowHtml) : List LogMsg :=
  match extract_row rh with
  | .error e => [.rowError e]
  | _ => []

/-- `cve_table.find("tr", {"data-testid": f"vuln-row-{i}"})`. -/
def rowSlot (tbl : List (Option RowHtml)) (i : Nat) : Option RowHtml :=
  (tbl.get? i).getD none

/-- The record contributed by slot `i` of a table. -/
def slotRecord (tbl : List (Option RowHtml)) (i : Nat) : Option Vuln :=
  (rowSlot tbl i).bind rowRecord

/-- The log lines contributed by slot `i` of a table. -/
def slotLog (tbl : List (Option RowHtml)) (i : Nat) : List LogMsg :=
  match rowSlot tbl i with
  | none => []
  | some rh => rowLog rh

/-- One step of the row loop (lines 55–90): a missing slot is skipped
silently, a caught exception appends an error line, a surviving record is
appended to the accumulator. -/
def rowStep (tbl : List (Option RowHtml)) (acc : List LogMsg × List Vuln) (i : Nat) :
    List LogMsg × List Vuln :=
  match rowSlot tbl i with
  | none => acc
  | some rh =>
    match extract_row rh with
    | .error e => (acc.1 ++ [.rowError e], acc.2)
    | .ok none => acc
    | .ok (some v) => (acc.1, acc.2 ++ [v])

/-- Lines 49–90: processing of one fetched page.  A missing results table
logs `"No CVE results found on page {page+1}"` and contributes nothing;
otherwise row slots `0..19` are probed in order. -/
def process_page (page : Nat) (body : PageHtml) : List LogMsg × List Vuln :=
  match body.table with
  | none => ([.noResultsOnPage (page + 1)], [])
  | some tbl => (List.range 20).foldl (rowStep tbl) ([], [])

/-- The records a page contributes, slot by slot. -/
def pageRecords (body : PageHtml) : List Vuln :=
  match body.table with
  | none => []
  | some tbl => (List.range 20).filterMap (slotRecord tbl)

/-- The log lines a page contributes. -/
def pageLog (page : Nat) (body : PageHtml) : List LogMsg :=
  match body.table with
  | none => [.noResultsOnPage (page + 1)]
  | some tbl => ((List.range 20).map (slotLog tbl)).flatten

/-- `results_per_page = 20`. -/
def results_per_page : Nat := 20

/-- Line 39: `num_pages = math.ceil(total_vulns / results_per_page)`.
The exact ceiling of the real quotient is computed by floor division as
`(total + 20 - 1) / 20` (`Int` division is Euclidean, which is floor
division for the positive divisor 20); the identity with the rational
ceiling is proved in `num_pages_eq_ceil` and restated in claim C1's
theorem.  The count is clamped to `Nat` for iteration (Python's `range`
over a non-positive count is likewise empty). -/
def num_pages (total : Int) : Nat :=
  ((total + (results_per_page : Int) - 1) / (results_per_page : Int)).toNat

/-- Line 93: `all_vulns.sort(key=lambda x: x['score'], reverse=True)`.
Python's sort is stable, and `reverse=True` keeps equal keys in their
original order; this is modelled by insertion sort that inserts each
element after every earlier element whose score is strictly larger and
before the first whose score is less than or equal. -/
def insertDesc (v : Vuln) : List Vuln → List Vuln
  | [] => [v]
  | w :: ws => if v.score < w.score then w :: insertDesc v ws else v :: w :: ws

/-- Stable sort by score descending (see `insertDesc`). -/
def sortDesc : List Vuln → List Vuln
  | [] => []
  | v :: vs => insertDesc v (sortDesc vs)

/-- The observable outcome of one `scrape_nist_cve` invocation: the page
offsets requested by the page loop, the console prints, the parsed total,
the accumulated records in extraction order, the sorted records, and the
records serialized to the CSV file (`none` when no file is written). -/
structure RunResult where
  pageOffsets : List Nat
  log : List LogMsg
  totalReported : Option Int
  extracted : List Vuln
  records : List Vuln
  fileWritten : Option (List Vuln)
deriving Repr, DecidableEq

/-- Lines 10–114: the whole `scrape_nist_cve` pipeline over a pure
transport `fetch : startIndex ↦ response`.  The discovery request goes to
offset `0`; a non-200 status or a missing count element aborts with a
message and no file; an unparsable count text raises an uncaught
`ValueError` (result `none`); otherwise the page loop fetches offsets
`page * results_per_page` for `page ∈ [0, num_pages)` (the loop's three
observables — offsets, logs, records — are each mapped over the same page
indices, which coincides with the single source loop because `fetch` is a
pure function), the records are sorted and written to the CSV file. -/
def scrape_nist_cve (fetch : Nat → Response) : Option RunResult :=
  let response := fetch 0
  if response.status_code ≠ 200 then
    some { pageOffsets := [], log := [.failedStatus response.status_code],
           totalReported := none, extracted := [], records := [], fileWritten := none }
  else
    match response.body.countText with
    | none =>
      some { pageOffsets := [], log := [.noMatching],
             totalReported := none, extracted := [], records := [], fileWritten := none }
    | some txt =>
      match pyInt? (stripCommas txt) with
      | none => none
      | some total =>
        let pages := List.range (num_pages total)
        let offsets := pages.map (fun page => page * results_per_page)
        let logs :=
          (pages.map (fun page =>
            (process_page page (fetch (page * results_per_page)).body).1)).flatten
        let all_vulns :=
          (pages.map (fun page =>
            (process_page page (fetch (page * results_per_page)).body).2)).flatten
        some { pageOffsets := offsets,
               log := .totalFound total :: logs,
               totalReported := some total,
               extracted := all_vulns,
               records := sortDesc all_vulns,
               fileWritten := some (sortDesc all_vulns) }

/-- Line 100: the console rendering of a summary, truncated to 95
characters plus `"..."` when longer. -/
def truncated_desc (d : PyStr) : PyStr :=
  if d.length > 95 then d.take 95 ++ "...".toList else d

/-- Python `str()` applied to the score when `csv.DictWriter` serializes
the record; the exact digit string is irrelevant to the claims, which only
need the field to travel through the file verbatim. -/
def scoreRepr (q : ℚ) : PyStr := (toString q).toList

/-- The header row written by `writer.writeheader()`. -/
def csvHeader : List PyStr :=
  ["cve_number".toList, "score".toList, "description".toList,
   "published_date".toList, "url".toList]

/-- The five field strings of one CSV data row, in `fieldnames` order. -/
def vulnFields (v : Vuln) : List PyStr :=
  [v.cve_number, scoreRepr v.score, v.description, v.published_date, v.url]

/-- A character that forces quoting under the csv module's default
`QUOTE_MINIMAL` dialect: the delimiter, the quote character, or a
lineterminator character. -/
def specialChar (c : Char) : Bool :=
  c = ',' ∨ c = '"' ∨ c = '\r' ∨ c = '\n'

/-- Quote-doubling inside a quoted field. -/
def escapeQuotes : PyStr → PyStr
  | [] => []
  | c :: cs => if c = '"' then '"' :: '"' :: escapeQuotes cs else c :: escapeQuotes cs

/-- Minimal quoting of one field. -/
def quoteField (f : PyStr) : PyStr :=
  if f.any specialChar then '"' :: (escapeQuotes f ++ ['"']) else f

/-- Comma-join of the quoted fields of one row. -/
def joinFields : List PyStr → PyStr
  | [] => []
  | [f] => quoteField f
  | f :: fs => quoteField f ++ ',' :: joinFields fs

/-- One serialized CSV row, terminated by the default `"\r\n"`. -/
def writeRow (fs : List PyStr) : PyStr := joinFields fs ++ ['\r', '\n']

/-- The serialized CSV file for a list of rows. -/
def writeCsv (rows : List (List PyStr)) : PyStr := (rows.map writeRow).flatten

/-- Lines 117–132: the bytes (code points) written to the output file —
the fixed header row followed by one data row per record. -/
def output_to_csv (vulns : List Vuln) : PyStr :=
  writeCsv (csvHeader :: vulns.map vulnFields)

/-- A character at which an unquoted field ends. -/
def notFieldEnd (c : Char) : Bool := ¬ (c = ',' ∨ c = '\r' ∨ c = '\n')

/-- Re-reading: parse the body of a quoted field (the opening quote already
consumed); a doubled quote is a literal quote, a lone quote closes the
field.  Fails on an unterminated field. -/
def parseQuotedBody : PyStr → Option (PyStr × PyStr)
  | [] => none
  | c :: cs =>
    if c = '"' then
      match cs with
      | [] => some ([], [])
      | c2 :: cs2 =>
        if c2 = '"' then (parseQuotedBody cs2).map (fun p => ('"' :: p.1, p.2))
        else some ([], c2 :: cs2)
    else (parseQuotedBody cs).map (fun p => (c :: p.1, p.2))

/-- Parse one field: quoted when it opens with a quote, otherwise the run
of characters up to the next delimiter or line end. -/
def parseField : PyStr → Option (PyStr × PyStr)
  | [] => some ([], [])
  | c :: cs =>
    if c = '"' then parseQuotedBody cs
    else some ((c :: cs).takeWhile notFieldEnd, (c :: cs).dropWhile notFieldEnd)

/-- Parse one row: fields separated by commas, closed by `"\r\n"` or the
end of input.  `fuel` bounds the number of fields. -/
def parseRow : Nat → PyStr → Option (List PyStr × PyStr)
  | 0, _ => none
  | fuel + 1, s =>
    match parseField s with
    | none => none
    | some (f, rest) =>
      match rest with
      | [] => some ([f], [])
      | c :: rest2 =>
        if c = ',' then (parseRow fuel rest2).map (fun p => (f :: p.1, p.2))
        else if c = '\r' then
          match rest2 with
          | c2 :: rest3 => if c2 = '\n' then some ([f], rest3) else none
          | [] => none
        else none

/-- Parse a whole CSV file into its rows of fields. -/
def parseCsv : Nat → PyStr → Option (List (List PyStr))
  | 0, _ => none
  | _ + 1, [] => some []
  | fuel + 1, c :: cs =>
    match parseRow ((c :: cs).length + 1) (c :: cs) with
    | none => none
    | some (row, rest) => (parseCsv fuel rest).map (fun rs => row :: rs)

/-- Re-read a serialized CSV file. -/
def readCsv (s : PyStr) : Option (List (List PyStr)) := parseCsv (s.length + 1) s

/-! ## Supporting lemmas: the row loop -/

theorem foldl_rowStep (tbl : List (Option RowHtml)) (l : List Nat)
    (lg : List LogMsg) (acc : List Vuln) :
    l.foldl (rowStep tbl) (lg, acc) =
      (lg ++ (l.map (slotLog tbl)).flatten, acc ++ l.filterMap (slotRecord tbl)) := by
  induction l generalizing lg acc with
  | nil => simp
  | cons i is ih =>
    simp only [List.foldl_cons, List.map_cons, List.flatten_cons, List.filterMap_cons]
    cases hslot : rowSlot tbl i with
    | none =>
      simp [rowStep, slotLog, slotRecord, hslot, ih]
    | some rh =>
      cases hex : extract_row rh with
      | error e =>
        simp [rowStep, slotLog, slotRecord, rowLog, rowRecord, hslot, hex, ih]
      | ok o =>
        cases o with
        | none => simp [rowStep, slotLog, slotRecord, rowLog, rowRecord, hslot, hex, ih]
        | some v => simp [rowStep, slotLog, slotRecord, rowLog, rowRecord, hslot, hex, ih]

theorem process_page_eq (page : Nat) (body : PageHtml) :
    process_page page body = (pageLog page body, pageRecords body) := by
  cases body with
  | mk ct tbl =>
    cases tbl with
    | none => simp [process_page, pageLog, pageRecords]
    | some t => simp [process_page, pageLog, pageRecords, foldl_rowStep]

/-! ## Supporting lemmas: the stable descending sort -/

theorem mem_insertDesc {v w : Vuln} {l : List Vuln} :
    w ∈ insertDesc v l ↔ w = v ∨ w ∈ l := by
  induction l with
  | nil => simp [insertDesc]
  | cons x xs ih =>
    by_cases h : v.score < x.score
    · simp only [insertDesc, if_pos h, List.mem_cons, ih]
      tauto
    · simp only [insertDesc, if_neg h, List.mem_cons]

theorem pairwise_insertDesc (v : Vuln) {l : List Vuln}
    (h : l.Pairwise (fun a b => b.score ≤ a.score)) :
    (insertDesc v l).Pairwise (fun a b => b.score ≤ a.score) := by
  induction l with
  | nil => simp [insertDesc]
  | cons x xs ih =>
    rcases List.pairwise_cons.mp h with ⟨hx, hxs⟩
    by_cases hlt : v.score < x.score
    · simp only [insertDesc, if_pos hlt]
      refine List.pairwise_cons.mpr ⟨?_, ih hxs⟩
      intro w hw
      rcases mem_insertDesc.mp hw with rfl | hw
      · exact le_of_lt hlt
      · exact hx w hw
    · simp only [insertDesc, if_neg hlt]
      push_neg at hlt
      refine List.pairwise_cons.mpr ⟨?_, h⟩
      intro w hw
      rcases List.mem_cons.mp hw with rfl | hw
      · exact hlt
      · exact le_trans (hx w hw) hlt

theorem pairwise_sortDesc (l : List Vuln) :
    (sortDesc l).Pairwise (fun a b => b.score ≤ a.score) := by
  induction l with
  | nil => simp [sortDesc]
  | cons v vs ih => exact pairwise_insertDesc v ih

theorem mem_sortDesc {w : Vuln} {l : List Vuln} : w ∈ sortDesc l ↔ w ∈ l := by
  induction l with
  | nil => simp [sortDesc]
  | cons v vs ih => simp [sortDesc, mem_insertDesc, ih]

theorem filter_insertDesc (v : Vuln) (l : List Vuln) (s : ℚ) :
    (insertDesc v l).filter (fun w => decide (w.score = s)) =
      if v.score = s then v :: l.filter (fun w => decide (w.score = s))
      else l.filter (fun w => decide (w.score = s)) := by
  induction l with
  | nil =>
    by_cases h : v.score = s <;> simp [insertDesc, List.filter, h]
  | cons x xs ih =>
    by_cases hlt : v.score < x.score
    · have hxv : ¬ (x.score = s ∧ v.score = s) := by
        rintro ⟨hx, hv⟩
        rw [hv, hx] at hlt
        exact lt_irrefl s hlt
      simp only [insertDesc, if_pos hlt]
      by_cases hx : x.score = s
      · have hv : ¬ v.score = s := fun hv => hxv ⟨hx, hv⟩
        simp [List.filter_cons, hx, hv, ih]
      · by_cases hv : v.score = s <;> simp [List.filter_cons, hx, hv, ih]
    · simp only [insertDesc, if_neg hlt]
      by_cases hv : v.score = s <;> by_cases hx : x.score = s <;>
        simp [List.filter_cons, hv, hx]

theorem filter_sortDesc (l : List Vuln) (s : ℚ) :
    (sortDesc l).filter (fun w => decide (w.score = s)) =
      l.filter (fun w => decide (w.score = s)) := by
  induction l with
  | nil => simp [sortDesc]
  | cons v vs ih =>
    by_cases hv : v.score = s <;>
      simp [sortDesc, filter_insertDesc, hv, ih, List.filter_cons]

/-! ## Supporting lemmas: the run as a whole -/

/-- The run result of the success path, for a parsed total. -/
def scrapeSuccess (fetch : Nat → Response) (total : Int) : RunResult :=
  { pageOffsets := (List.range (num_pages total)).map (fun page => page * results_per_page),
    log := .totalFound total ::
      ((List.range (num_pages total)).map (fun page =>
        (process_page page (fetch (page * results_per_page)).body).1)).flatten,
    totalReported := some total,
    extracted := ((List.range (num_pages total)).map (fun page =>
        (process_page page (fetch (page * results_per_page)).body).2)).flatten,
    records := sortDesc (((List.range (num_pages total)).map (fun page =>
        (process_page page (fetch (page * results_per_page)).body).2)).flatten),
    fileWritten := some (sortDesc (((List.range (num_pages total)).map (fun page =>
        (process_page page (fetch (page * results_per_page)).body).2)).flatten)) }

theorem scrape_cases (fetch : Nat → Response) (r : RunResult)
    (h : scrape_nist_cve fetch = some r) :
    ((fetch 0).status_code ≠ 200 ∧
      r = ⟨[], [.failedStatus (fetch 0).status_code], none, [], [], none⟩)
  ∨ ((fetch 0).status_code = 200 ∧ (fetch 0).body.countText = none ∧
      r = ⟨[], [.noMatching], none, [], [], none⟩)
  ∨ (∃ txt total, (fetch 0).status_code = 200 ∧ (fetch 0).body.countText = some txt ∧
      pyInt? (stripCommas txt) = some total ∧ r = scrapeSuccess fetch total) := by
  simp only [scrape_nist_cve] at h
  split at h
  · next hs =>
    exact Or.inl ⟨hs, (Option.some.inj h).symm⟩
  · next hs =>
    push_neg at hs
    split at h
    · next hc =>
      exact Or.inr (Or.inl ⟨hs, hc, (Option.some.inj h).symm⟩)
    · next txt hc =>
      split at h
      · exact absurd h (by simp)
      · next total hp =>
        refine Or.inr (Or.inr ⟨txt, total, hs, hc, hp, ?_⟩)
        rw [← Option.some.inj h]
        rfl

/-! ## Supporting lemmas: row extraction -/

theorem extract_row_ok_some (rh : RowHtml) (v : Vuln) :
    extract_row rh = .ok (some v) ↔
      ∃ d s, rh.summary = some d ∧ extract_score rh.scoreSpan = .ok (some s) ∧ ¬ s = 0 ∧
        v = ⟨link_cve_number rh, s, d, rh.published.getD notAvailable, link_cve_url rh⟩ := by
  cases hsum : rh.summary with
  | none => simp [extract_row, hsum]
  | some d =>
    cases hsc : extract_score rh.scoreSpan with
    | error e => simp [extract_row, hsum, hsc]
    | ok o =>
      cases o with
      | none => simp [extract_row, hsum, hsc]
      | some s =>
        by_cases h0 : s = 0
        · simp [extract_row, hsum, hsc, h0]
        · simp only [extract_row, hsum, hsc, if_neg h0, Except.ok.injEq, Option.some.injEq]
          constructor
          · rintro rfl
            exact ⟨d, s, rfl, rfl, h0, rfl⟩
          · rintro ⟨d2, s2, hd2, hs2, h02, rfl⟩
            rw [hd2, hs2]

theorem rowRecord_eq_some {rh : RowHtml} {v : Vuln} (h : rowRecord rh = some v) :
    rh.summary = some v.description ∧ extract_score rh.scoreSpan = .ok (some v.score) ∧
      v.score ≠ 0 := by
  unfold rowRecord at h
  split at h
  · next heq =>
    cases h
    rcases (extract_row_ok_some rh v).mp heq with ⟨d, s, hd, hs, h0, hv⟩
    subst hv
    exact ⟨hd, hs, h0⟩
  · exact absurd h (by simp)

theorem rowRecord_none_of_error {rh : RowHtml} {e : PyErr}
    (h : extract_row rh = .error e) : rowRecord rh = none := by
  simp [rowRecord, h]

theorem rowRecord_none_of_score_none {rh : RowHtml}
    (h : extract_score rh.scoreSpan = .ok none) : rowRecord rh = none := by
  cases hsum : rh.summary <;> simp [rowRecord, extract_row, hsum, h]

theorem extract_row_error_of_summary_none {rh : RowHtml} (h : rh.summary = none) :
    extract_row rh = .error .attributeError := by
  simp [extract_row, h]

/-! ## Supporting lemmas: CSV serialization round trip -/

theorem parseQuotedBody_escape (f : PyStr) (rest : PyStr)
    (hrest : rest.head? ≠ some '"') :
    parseQuotedBody (escapeQuotes f ++ '"' :: rest) = some (f, rest) := by
  induction f with
  | nil =>
    cases rest with
    | nil => simp [escapeQuotes, parseQuotedBody]
    | cons c2 cs2 =>
      have hc2 : ¬ c2 = '"' := by simpa using hrest
      simp [escapeQuotes, parseQuotedBody, hc2]
  | cons c f' ih =>
    by_cases hc : c = '"'
    · subst hc
      simp only [escapeQuotes, if_pos rfl, List.cons_append]
      simp [parseQuotedBody, ih]
    · simp only [escapeQuotes, if_neg hc, List.cons_append]
      rw [parseQuotedBody.eq_def]
      simp [hc, ih]

theorem takeWhile_append_all {p : Char → Bool} (f rest : PyStr)
    (hf : ∀ c ∈ f, p c = true) (hrest : ∀ c cs, rest = c :: cs → p c = false) :
    (f ++ rest).takeWhile p = f ∧ (f ++ rest).dropWhile p = rest := by
  induction f with
  | nil =>
    cases rest with
    | nil => simp
    | cons c cs =>
      have hc : p c = false := hrest c cs rfl
      simp [List.takeWhile_cons, List.dropWhile_cons, hc]
  | cons c f' ih =>
    have hc : p c = true := hf c (by simp)
    have := ih (fun d hd => hf d (by simp [hd]))
    simp [List.takeWhile_cons, List.dropWhile_cons, hc, this.1, this.2]

theorem not_special_fields {c : Char} (h : specialChar c = false) :
    notFieldEnd c = true ∧ ¬ c = '"' := by
  simp only [specialChar, decide_eq_false_iff_not, not_or] at h
  obtain ⟨h1, h2, h3, h4⟩ := h
  constructor
  · simp [notFieldEnd, h1, h3, h4]
  · exact h2

theorem parseField_quoteField (f rest : PyStr)
    (hrest : rest = [] ∨ rest.head? = some ',' ∨ rest.head? = some '\r') :
    parseField (quoteField f ++ rest) = some (f, rest) := by
  by_cases hq : f.any specialChar
  · have hshape : quoteField f ++ rest = '"' :: (escapeQuotes f ++ '"' :: rest) := by
      simp [quoteField, hq, List.append_assoc]
    rw [hshape]
    have hhead : rest.head? ≠ some '"' := by
      rcases hrest with rfl | h | h
      · simp
      · simp [h]
      · simp [h]
    simp [parseField, parseQuotedBody_escape f rest hhead]
  · have hspec : ∀ c ∈ f, specialChar c = false := by
      intro c hc
      by_contra hne
      exact hq (List.any_eq_true.mpr ⟨c, hc, by simpa using hne⟩)
    have hqf : quoteField f = f := by simp [quoteField, hq]
    rw [hqf]
    have hheadF : ∀ c cs, rest = c :: cs → notFieldEnd c = false := by
      intro c cs hcs
      subst hcs
      rcases hrest with h | h | h
      · simp at h
      · have : c = ',' := by simpa using h
        simp [notFieldEnd, this]
      · have : c = '\r' := by simpa using h
        simp [notFieldEnd, this]
    cases f with
    | nil =>
      cases rest with
      | nil => simp [parseField]
      | cons c cs =>
        have hc : notFieldEnd c = false := hheadF c cs rfl
        have hcq : ¬ c = '"' := by
          rcases hrest with h | h | h
          · simp at h
          · have : c = ',' := by simpa using h
            simp [this]
          · have : c = '\r' := by simpa using h
            simp [this]
        simp [parseField, hcq, List.takeWhile_cons, List.dropWhile_cons, hc]
    | cons c f'' =>
      have hall : ∀ d ∈ c :: f'', notFieldEnd d = true :=
        fun d hd => (not_special_fields (hspec d hd)).1
      have hcq : ¬ c = '"' := (not_special_fields (hspec c (by simp))).2
      have htd := @takeWhile_append_all notFieldEnd (c :: f'') rest hall hheadF
      simp only [List.cons_append] at htd
      simp [parseField, hcq, htd.1, htd.2]

theorem joinFields_cons_cons (f g : PyStr) (fs : List PyStr) :
    joinFields (f :: g :: fs) = quoteField f ++ ',' :: joinFields (g :: fs) := rfl

theorem parseRow_writeRow (fields : List PyStr) (rest : PyStr) (fuel : Nat)
    (hne : fields ≠ []) (hfuel : fields.length ≤ fuel) :
    parseRow fuel (joinFields fields ++ '\r' :: '\n' :: rest) = some (fields, rest) := by
  induction fields generalizing fuel with
  | nil => exact absurd rfl hne
  | cons f fs ih =>
    cases fuel with
    | zero => simp at hfuel
    | succ fuel =>
      cases fs with
      | nil =>
        have hpf := parseField_quoteField f ('\r' :: '\n' :: rest) (Or.inr (Or.inr rfl))
        show parseRow (fuel + 1) (quoteField f ++ '\r' :: '\n' :: rest) = _
        rw [parseRow.eq_def]
        simp [hpf]
      | cons g gs =>
        have hshape : joinFields (f :: g :: gs) ++ '\r' :: '\n' :: rest
            = quoteField f ++ ',' :: (joinFields (g :: gs) ++ '\r' :: '\n' :: rest) := by
          rw [joinFields_cons_cons, List.append_assoc]
          rfl
        rw [hshape]
        have hpf := parseField_quoteField f
          (',' :: (joinFields (g :: gs) ++ '\r' :: '\n' :: rest)) (Or.inr (Or.inl rfl))
        have hih := ih fuel (by simp) (by simpa using Nat.le_of_succ_le_succ hfuel)
        rw [parseRow.eq_def]
        simp [hpf, hih]

theorem length_le_joinFields (fields : List PyStr) :
    fields.length ≤ (joinFields fields).length + 1 := by
  induction fields with
  | nil => simp [joinFields]
  | cons f fs ih =>
    cases fs with
    | nil => simp [joinFields]
    | cons g gs =>
      rw [joinFields_cons_cons]
      simp only [List.length_cons, List.length_append] at ih ⊢
      omega

theorem parseCsv_writeCsv (rows : List (List PyStr)) (fuel : Nat)
    (hrows : ∀ row ∈ rows, row ≠ []) (hfuel : rows.length < fuel) :
    parseCsv fuel (writeCsv rows) = some rows := by
  induction rows generalizing fuel with
  | nil =>
    cases fuel with
    | zero => omega
    | succ n => simp [writeCsv, parseCsv]
  | cons row rows ih =>
    cases fuel with
    | zero => omega
    | succ fuel =>
      have hrow : row ≠ [] := hrows row (by simp)
      have hshape : writeCsv (row :: rows) = joinFields row ++ '\r' :: '\n' :: writeCsv rows := by
        simp [writeCsv, writeRow, List.append_assoc]
      have hlen : row.length ≤ (writeCsv (row :: rows)).length + 1 := by
        rw [hshape]
        have := length_le_joinFields row
        simp only [List.length_append, List.length_cons]
        omega
      have hparse : parseRow ((writeCsv (row :: rows)).length + 1) (writeCsv (row :: rows))
          = some (row, writeCsv rows) := by
        rw [hshape]
        exact parseRow_writeRow row (writeCsv rows) _ hrow (by rw [hshape] at hlen; exact hlen)
      cases hJ : writeCsv (row :: rows) with
      | nil =>
        rw [hshape] at hJ
        simp at hJ
      | cons c cs =>
        have : parseCsv (fuel + 1) (c :: cs)
            = match parseRow ((c :: cs).length + 1) (c :: cs) with
              | none => none
              | some (row2, rest) => (parseCsv fuel rest).map (fun rs => row2 :: rs) := by
          rw [parseCsv.eq_def]
        rw [← hJ] at this
        rw [← hJ, this, hparse]
        have hihr := ih fuel (fun rw2 h2 => hrows rw2 (by simp [h2]))
          (by simp only [List.length_cons] at hfuel; omega)
        simp [hihr]

theorem length_le_writeCsv (rows : List (List PyStr)) :
    rows.length ≤ (writeCsv rows).length := by
  induction rows with
  | nil => simp [writeCsv]
  | cons row rs ih =>
    have hsh : writeCsv (row :: rs) = writeRow row ++ writeCsv rs := by
      simp [writeCsv]
    have h2 : 2 ≤ (writeRow row).length := by simp [writeRow]
    rw [hsh]
    simp only [List.length_cons, List.length_append]
    omega

theorem readCsv_writeCsv (rows : List (List PyStr)) (hrows : ∀ row ∈ rows, row ≠ []) :
    readCsv (writeCsv rows) = some rows := by
  have hlen := length_le_writeCsv rows
  exact parseCsv_writeCsv rows _ hrows (by omega)

/-! ## Supporting lemmas: page arithmetic -/

theorem num_pages_eq_ceil (total : Int) (hpos : 0 ≤ total) :
    (num_pages total : Int) = Int.ceil ((total : ℚ) / 20) := by
  have hcast : ((total : ℚ) / 20) = -((((-total : Int) : ℚ)) / (((20 : Nat) : ℚ))) := by
    push_cast
    ring
  rw [hcast, Int.ceil_neg, Rat.floor_intCast_div_natCast]
  have h20 : (results_per_page : Int) = 20 := rfl
  unfold num_pages
  rw [h20]
  have hnn : 0 ≤ (total + 20 - 1) / 20 := by omega
  rw [Int.toNat_of_nonneg hnn]
  omega

/-! ## Claim C1 -/

/-- C1: For every non-negative reported total, the extractor computes the
number of pages as the exact ceiling of total divided by the fixed page
size of 20, and fetches exactly that many pages with start offsets
`p * 20` for every page index `p` in `[0, numPages)`; in particular
total 41 yields 3 pages with offsets {0, 20, 40} and total 40 yields
2 pages with offsets {0, 20}. -/
theorem pagination_ceiling_and_offsets (fetch : Nat → Response) (r : RunResult) (total : Int)
    (h : scrape_nist_cve fetch = some r) (ht : r.totalReported = some total)
    (hpos : 0 ≤ total) :
    results_per_page = 20
  ∧ (num_pages total : Int) = Int.ceil ((total : ℚ) / 20)
  ∧ r.pageOffsets = (List.range (num_pages total)).map (fun p => p * 20)
  ∧ num_pages 41 = 3 ∧ (List.range (num_pages 41)).map (fun p => p * 20) = [0, 20, 40]
  ∧ num_pages 40 = 2 ∧ (List.range (num_pages 40)).map (fun p => p * 20) = [0, 20] := by
  rcases scrape_cases fetch r h with ⟨hs, rfl⟩ | ⟨hs, hc, rfl⟩ | ⟨txt, total2, hs, hc, hp, rfl⟩
  · simp at ht
  · simp at ht
  · have htt : total2 = total := by simpa [scrapeSuccess] using ht
    subst htt
    exact ⟨rfl, num_pages_eq_ceil total2 hpos,
      by simp [scrapeSuccess, results_per_page],
      by decide, by decide, by decide, by decide⟩

/-- Transport fixture for the C1 witness: a discovery page reporting a
total of 41 and no results table on any page. -/
def wFetch1 : Nat → Response := fun _ => ⟨200, ⟨some "41".toList, none⟩⟩

/-- The run result produced by `wFetch1`. -/
def wRun1 : RunResult :=
  ⟨[0, 20, 40],
   [.totalFound 41, .noResultsOnPage 1, .noResultsOnPage 2, .noResultsOnPage 3],
   some 41, [], [], some []⟩

/-- Witness for C1: the hypotheses are satisfiable at a concrete run with
total 41, which fetches exactly the page offsets 0, 20, 40. -/
theorem pagination_ceiling_and_offsets_witness :
    scrape_nist_cve wFetch1 = some wRun1 ∧ wRun1.totalReported = some 41 ∧ (0 : Int) ≤ 41 ∧
    (results_per_page = 20
     ∧ (num_pages 41 : Int) = Int.ceil (((41 : Int) : ℚ) / 20)
     ∧ wRun1.pageOffsets = (List.range (num_pages 41)).map (fun p => p * 20)
     ∧ num_pages 41 = 3 ∧ (List.range (num_pages 41)).map (fun p => p * 20) = [0, 20, 40]
     ∧ num_pages 40 = 2 ∧ (List.range (num_pages 40)).map (fun p => p * 20) = [0, 20]) :=
  ⟨by decide, by decide, by decide,
   pagination_ceiling_and_offsets wFetch1 wRun1 41 (by decide) (by decide) (by decide)⟩

/-! ## Claim C2 -/

theorem mem_records_exists_row (fetch : Nat → Response) (r : RunResult) (v : Vuln)
    (h : scrape_nist_cve fetch = some r) (hv : v ∈ r.records) :
    ∃ rh : RowHtml, rowRecord rh = some v := by
  rcases scrape_cases fetch r h with ⟨hs, rfl⟩ | ⟨hs, hc, rfl⟩ | ⟨txt, total, hs, hc, hp, rfl⟩
  · simp at hv
  · simp at hv
  · simp only [scrapeSuccess] at hv
    rw [mem_sortDesc, List.mem_flatten] at hv
    obtain ⟨l, hl, hvl⟩ := hv
    rw [List.mem_map] at hl
    obtain ⟨page, hpage, rfl⟩ := hl
    rw [process_page_eq] at hvl
    unfold pageRecords at hvl
    cases htb : (fetch (page * results_per_page)).body.table with
    | none =>
      rw [htb] at hvl
      simp at hvl
    | some tbl =>
      rw [htb] at hvl
      rw [List.mem_filterMap] at hvl
      obtain ⟨i, hi, hslot⟩ := hvl
      unfold slotRecord at hslot
      cases hrow : rowSlot tbl i with
      | none =>
        rw [hrow] at hslot
        simp at hslot
      | some rh =>
        rw [hrow] at hslot
        exact ⟨rh, hslot⟩

/-- C2: Every record in the final output collection has a valid score —
it is the (non-null) value successfully parsed from its row's score
element — and every row whose score was not successfully parsed
contributes no record at all to the result set, rather than being
retained with a null score. -/
theorem records_have_parsed_scores (fetch : Nat → Response) (r : RunResult)
    (h : scrape_nist_cve fetch = some r) :
    (∀ v ∈ r.records, ∃ rh : RowHtml, rowRecord rh = some v ∧
        extract_score rh.scoreSpan = .ok (some v.score))
  ∧ (∀ rh : RowHtml, (∀ s : ℚ, extract_score rh.scoreSpan ≠ .ok (some s)) →
        rowRecord rh = none) := by
  constructor
  · intro v hv
    obtain ⟨rh, hrh⟩ := mem_records_exists_row fetch r v h hv
    exact ⟨rh, hrh, (rowRecord_eq_some hrh).2.1⟩
  · intro rh hno
    cases hsc : extract_score rh.scoreSpan with
    | error e =>
      cases hsum : rh.summary with
      | none => exact rowRecord_none_of_error (extract_row_error_of_summary_none hsum)
      | some d =>
        have herr : extract_row rh = .error e := by
          simp [extract_row, hsum, hsc]
        exact rowRecord_none_of_error herr
    | ok o =>
      cases o with
      | none => exact rowRecord_none_of_score_none hsc
      | some s => exact absurd hsc (hno s)

/-- Row fixture for the C2 witness: a fully well-formed row scoring 9.8. -/
def wRow2 : RowHtml :=
  ⟨some ("CVE-2024-0001".toList, "/vuln/detail/CVE-2024-0001".toList),
   some "Heap overflow in the widget parser.".toList,
   some "V3.1: 9.8".toList,
   some "June 01, 2024".toList⟩

/-- Transport fixture for the C2 witness: one page with one row. -/
def wFetch2 : Nat → Response := fun _ => ⟨200, ⟨some "1".toList, some [some wRow2]⟩⟩

/-- The record extracted from `wRow2`. -/
def wVuln2 : Vuln :=
  ⟨"CVE-2024-0001".toList, Rat.divInt 98 10,
   "Heap overflow in the widget parser.".toList, "June 01, 2024".toList,
   "https://nvd.nist.gov/vuln/detail/CVE-2024-0001".toList⟩

/-- The run result produced by `wFetch2`. -/
def wRun2 : RunResult :=
  ⟨[0], [.totalFound 1], some 1, [wVuln2], [wVuln2], some [wVuln2]⟩

/-- Witness for C2: the hypothesis holds at a concrete run that actually
extracts one record with a parsed score. -/
theorem records_have_parsed_scores_witness :
    scrape_nist_cve wFetch2 = some wRun2 ∧
    ((∀ v ∈ wRun2.records, ∃ rh : RowHtml, rowRecord rh = some v ∧
         extract_score rh.scoreSpan = .ok (some v.score))
     ∧ (∀ rh : RowHtml, (∀ s : ℚ, extract_score rh.scoreSpan ≠ .ok (some s)) →
         rowRecord rh = none)) :=
  ⟨by decide, records_have_parsed_scores wFetch2 wRun2 (by decide)⟩

/-! ## Claim C3 -/

/-- Transport fixture for the C3 counterexample: the discovery response
carries a total-count element whose text is `"0"`. -/
def cFetch3 : Nat → Response := fun _ => ⟨200, ⟨some "0".toList, none⟩⟩

/-- The run result produced by `cFetch3`. -/
def cRun3 : RunResult := ⟨[], [.totalFound 0], some 0, [], [], some []⟩

/-- Counterexample to C3 as stated: when the discovery response reports a
total of exactly 0, zero pages are indeed fetched, but the run does NOT
take the "no matching records" path (that message is never printed) and an
output file IS written (header-only, zero records). -/
theorem zero_total_writes_file_counterexample :
    scrape_nist_cve cFetch3 = some cRun3
  ∧ cRun3.totalReported = some 0
  ∧ cRun3.pageOffsets = []
  ∧ cRun3.fileWritten ≠ none
  ∧ LogMsg.noMatching ∉ cRun3.log := by decide

/-- C3 amended: when the discovery response's total-count element parses
to 0, zero pages are fetched but the run still writes a (zero-record,
header-only) output file and never prints "no matching records"; the
"no matching records" path — no pages fetched and no output file — is
taken exactly when the total-count element is absent. -/
theorem zero_total_behaviour (fetch : Nat → Response) (r : RunResult)
    (h : scrape_nist_cve fetch = some r) :
    (r.totalReported = some 0 →
      r.pageOffsets = [] ∧ r.extracted = [] ∧ r.fileWritten = some [] ∧
      LogMsg.noMatching ∉ r.log)
  ∧ ((fetch 0).status_code = 200 → (fetch 0).body.countText = none →
      r.log = [.noMatching] ∧ r.fileWritten = none ∧ r.pageOffsets = []) := by
  rcases scrape_cases fetch r h with ⟨hs, rfl⟩ | ⟨hs, hc, rfl⟩ | ⟨txt, total, hs, hc, hp, rfl⟩
  · constructor
    · intro ht
      simp at ht
    · intro h200
      exact absurd h200 hs
  · constructor
    · intro ht
      simp at ht
    · intro _ _
      exact ⟨rfl, rfl, rfl⟩
  · constructor
    · intro ht
      have h0 : total = 0 := by simpa [scrapeSuccess] using ht
      subst h0
      have hnp : num_pages 0 = 0 := by decide
      simp [scrapeSuccess, hnp, sortDesc]
    · intro _ hcn
      rw [hcn] at hc
      exact absurd hc (by simp)

/-- Witness for the amended C3: its hypothesis is satisfiable at the same
concrete total-0 run. -/
theorem zero_total_behaviour_witness :
    scrape_nist_cve cFetch3 = some cRun3 ∧
    ((cRun3.totalReported = some 0 →
       cRun3.pageOffsets = [] ∧ cRun3.extracted = [] ∧ cRun3.fileWritten = some [] ∧
       LogMsg.noMatching ∉ cRun3.log)
     ∧ ((cFetch3 0).status_code = 200 → (cFetch3 0).body.countText = none →
       cRun3.log = [.noMatching] ∧ cRun3.fileWritten = none ∧ cRun3.pageOffsets = [])) :=
  ⟨by decide, zero_total_behaviour cFetch3 cRun3 (by decide)⟩

/-! ## Claim C4 -/

theorem scrape_records_eq_sortDesc (fetch : Nat → Response) (r : RunResult)
    (h : scrape_nist_cve fetch = some r) :
    r.records = sortDesc r.extracted := by
  rcases scrape_cases fetch r h with ⟨hs, rfl⟩ | ⟨hs, hc, rfl⟩ | ⟨txt, total, hs, hc, hp, rfl⟩
  · rfl
  · rfl
  · rfl

/-- C4: The final record collection is stably sorted by score descending —
every adjacent pair satisfies `score[i] ≥ score[i+1]`, and for every score
value the records carrying it appear in the output in their original
extraction order (the score-filtered sublist is unchanged). -/
theorem records_sorted_descending_stably (fetch : Nat → Response) (r : RunResult)
    (h : scrape_nist_cve fetch = some r) :
    List.Chain' (fun a b => b.score ≤ a.score) r.records
  ∧ ∀ s : ℚ, r.records.filter (fun v => decide (v.score = s))
      = r.extracted.filter (fun v => decide (v.score = s)) := by
  have heq := scrape_records_eq_sortDesc fetch r h
  rw [heq]
  exact ⟨(pairwise_sortDesc r.extracted).chain',
    fun s => filter_sortDesc r.extracted s⟩

/-- Low-score row fixture for the C4 witness (score 3.2, extracted first). -/
def wRowLow4 : RowHtml :=
  ⟨some ("CVE-2024-1111".toList, "/vuln/detail/CVE-2024-1111".toList),
   some "Minor info leak.".toList, some "V3.1: 3.2".toList, some "May 02, 2024".toList⟩

/-- High-score row fixture for the C4 witness (score 9.8, extracted second). -/
def wRowHigh4 : RowHtml :=
  ⟨some ("CVE-2024-2222".toList, "/vuln/detail/CVE-2024-2222".toList),
   some "Remote code execution.".toList, some "V3.1: 9.8".toList, some "May 03, 2024".toList⟩

/-- Transport fixture for the C4 witness: one page with the low-score row
before the high-score row. -/
def wFetch4 : Nat → Response :=
  fun _ => ⟨200, ⟨some "2".toList, some [some wRowLow4, some wRowHigh4]⟩⟩

/-- The record extracted from `wRowLow4`. -/
def wVulnLow4 : Vuln :=
  ⟨"CVE-2024-1111".toList, Rat.divInt 32 10, "Minor info leak.".toList,
   "May 02, 2024".toList, "https://nvd.nist.gov/vuln/detail/CVE-2024-1111".toList⟩

/-- The record extracted from `wRowHigh4`. -/
def wVulnHigh4 : Vuln :=
  ⟨"CVE-2024-2222".toList, Rat.divInt 98 10, "Remote code execution.".toList,
   "May 03, 2024".toList, "https://nvd.nist.gov/vuln/detail/CVE-2024-2222".toList⟩

/-- The run result produced by `wFetch4`: extraction order low-then-high,
report order high-then-low. -/
def wRun4 : RunResult :=
  ⟨[0], [.totalFound 2], some 2, [wVulnLow4, wVulnHigh4],
   [wVulnHigh4, wVulnLow4], some [wVulnHigh4, wVulnLow4]⟩

/-- Witness for C4: the hypothesis is satisfiable at a concrete run whose
two records really are reordered into descending score order. -/
theorem records_sorted_descending_stably_witness :
    scrape_nist_cve wFetch4 = some wRun4 ∧
    (List.Chain' (fun a b => b.score ≤ a.score) wRun4.records
     ∧ ∀ s : ℚ, wRun4.records.filter (fun v => decide (v.score = s))
        = wRun4.extracted.filter (fun v => decide (v.score = s))) :=
  ⟨by decide, records_sorted_descending_stably wFetch4 wRun4 (by decide)⟩

/-! ## Claim C5 -/

/-- C5: If the discovery request returns a non-success status, or its
response lacks the total-count marker element, the whole operation
terminates with a user-visible message (the failure print or the
"no matching records" print), no pages are fetched, and no output file is
produced — no partial results. -/
theorem discovery_failure_aborts (fetch : Nat → Response) (r : RunResult)
    (h : scrape_nist_cve fetch = some r)
    (habort : (fetch 0).status_code ≠ 200 ∨ (fetch 0).body.countText = none) :
    r.fileWritten = none ∧ r.pageOffsets = [] ∧ r.extracted = [] ∧ r.records = []
  ∧ (r.log = [.failedStatus (fetch 0).status_code] ∨ r.log = [.noMatching]) := by
  rcases scrape_cases fetch r h with ⟨hs, rfl⟩ | ⟨hs, hc, rfl⟩ | ⟨txt, total, hs, hc, hp, rfl⟩
  · exact ⟨rfl, rfl, rfl, rfl, Or.inl rfl⟩
  · exact ⟨rfl, rfl, rfl, rfl, Or.inr rfl⟩
  · rcases habort with hs2 | hc2
    · exact absurd hs hs2
    · rw [hc2] at hc
      exact absurd hc (by simp)

/-- Transport fixture for the C5 witness: the discovery request fails with
status 404. -/
def wFetch5 : Nat → Response := fun _ => ⟨404, ⟨none, none⟩⟩

/-- The run result produced by `wFetch5`. -/
def wRun5 : RunResult := ⟨[], [.failedStatus 404], none, [], [], none⟩

/-- Witness for C5: the hypotheses hold at a concrete failing discovery
request, and the run writes no file. -/
theorem discovery_failure_aborts_witness :
    scrape_nist_cve wFetch5 = some wRun5
  ∧ ((wFetch5 0).status_code ≠ 200 ∨ (wFetch5 0).body.countText = none)
  ∧ (wRun5.fileWritten = none ∧ wRun5.pageOffsets = [] ∧ wRun5.extracted = []
     ∧ wRun5.records = []
     ∧ (wRun5.log = [.failedStatus (wFetch5 0).status_code] ∨ wRun5.log = [.noMatching])) :=
  ⟨by decide, by decide,
   discovery_failure_aborts wFetch5 wRun5 (by decide) (by decide)⟩

/-! ## Claim C6 -/

/-- C6: For every row slot, an exception raised during per-field
extraction — in particular the `AttributeError` from a missing summary
element — aborts extraction of that row only: the error is logged, the
row contributes no record, and the loop's output is the slot-by-slot
concatenation over all twenty slots, so the other slots (including all
previously accumulated records) are unaffected. -/
theorem row_failure_isolated (page : Nat) (ct : Option PyStr) (tbl : List (Option RowHtml)) :
    (process_page page ⟨ct, some tbl⟩).2 = (List.range 20).filterMap (slotRecord tbl)
  ∧ (∀ rh : RowHtml, ∀ e : PyErr, extract_row rh = .error e → rowRecord rh = none)
  ∧ (∀ rh : RowHtml, rh.summary = none → extract_row rh = .error .attributeError)
  ∧ (∀ i : Nat, ∀ rh : RowHtml, ∀ e : PyErr, i < 20 → rowSlot tbl i = some rh →
      extract_row rh = .error e →
      LogMsg.rowError e ∈ (process_page page ⟨ct, some tbl⟩).1) := by
  refine ⟨?_, ?_, ?_, ?_⟩
  · rw [process_page_eq]
    rfl
  · intro rh e he
    exact rowRecord_none_of_error he
  · intro rh hs
    exact extract_row_error_of_summary_none hs
  · intro i rh e hi hslot herr
    rw [process_page_eq]
    show LogMsg.rowError e ∈ pageLog page ⟨ct, some tbl⟩
    simp only [pageLog]
    rw [List.mem_flatten]
    refine ⟨slotLog tbl i, List.mem_map.mpr ⟨i, List.mem_range.mpr hi, rfl⟩, ?_⟩
    simp only [slotLog]
    rw [hslot]
    simp only [rowLog]
    rw [herr]
    simp

/-- Row fixture for the C6 witness: its summary element is missing, so
row extraction raises `AttributeError`. -/
def wRowBad6 : RowHtml := ⟨none, none, some "V3.1: 5.0".toList, none⟩

/-- Table fixture for the C6 witness. -/
def wTbl6 : List (Option RowHtml) := [some wRowBad6]

/-- Witness for C6: at a concrete table holding one summary-less row, the
row errors, is logged, contributes no record, and the page output is the
slot-wise concatenation. -/
theorem row_failure_isolated_witness :
    (process_page 0 ⟨none, some wTbl6⟩).2 = (List.range 20).filterMap (slotRecord wTbl6)
  ∧ rowRecord wRowBad6 = none
  ∧ extract_row wRowBad6 = .error .attributeError
  ∧ LogMsg.rowError .attributeError ∈ (process_page 0 ⟨none, some wTbl6⟩).1 :=
  ⟨(row_failure_isolated 0 none wTbl6).1,
   (row_failure_isolated 0 none wTbl6).2.1 wRowBad6 .attributeError (by decide),
   (row_failure_isolated 0 none wTbl6).2.2.1 wRowBad6 (by decide),
   (row_failure_isolated 0 none wTbl6).2.2.2 0 wRowBad6 .attributeError (by decide)
     (by decide) (by decide)⟩

/-! ## Claim C7 -/

/-- C7: Score extraction reads only the `span#cvss3-link` sub-element; if
that sub-element is absent, or the fixed marker substring `"V3.1:"` does
not occur in its text, score extraction fails gracefully — it returns no
score rather than raising an exception — and such a row contributes no
record to the final set. -/
theorem score_marker_graceful (rh : RowHtml)
    (h : rh.scoreSpan = none ∨
         ∃ t, rh.scoreSpan = some t ∧ splitFirst? v31marker t = none) :
    extract_score rh.scoreSpan = .ok none ∧ rowRecord rh = none := by
  have hok : extract_score rh.scoreSpan = .ok none := by
    rcases h with h | ⟨t, ht, hnone⟩
    · rw [h]
      rfl
    · rw [ht]
      simp [extract_score, hnone]
  exact ⟨hok, rowRecord_none_of_score_none hok⟩

/-- Row fixture for the C7 witness: the score span is present but its text
lacks the `"V3.1:"` marker. -/
def wRh7 : RowHtml :=
  ⟨none, some "Legacy entry.".toList, some "CVSS 2.0: 5.0".toList, none⟩

/-- Witness for C7: the hypothesis holds at a concrete marker-less row,
whose score extraction returns no score without raising and which yields
no record. -/
theorem score_marker_graceful_witness :
    (wRh7.scoreSpan = none ∨
      ∃ t, wRh7.scoreSpan = some t ∧ splitFirst? v31marker t = none)
  ∧ (extract_score wRh7.scoreSpan = .ok none ∧ rowRecord wRh7 = none) :=
  ⟨Or.inr ⟨"CVSS 2.0: 5.0".toList, rfl, by decide⟩,
   score_marker_graceful wRh7 (Or.inr ⟨"CVSS 2.0: 5.0".toList, rfl, by decide⟩)⟩

/-! ## Claim C8 -/

/-- C8: For every record whose summary is strictly longer than 95
characters, the console rendering shows the first 95 characters followed
by the 3-character marker `"..."` while the serialized output file retains
the full untruncated summary (field 2 of the record's CSV row, which
survives the file round trip verbatim); summaries of 95 characters or
fewer are rendered unmodified. -/
theorem summary_console_truncation (v : Vuln) (h : 95 < v.description.length) :
    truncated_desc v.description = v.description.take 95 ++ "...".toList
  ∧ (v.description.take 95).length = 95
  ∧ ("...".toList).length = 3
  ∧ readCsv (output_to_csv [v]) = some [csvHeader, vulnFields v]
  ∧ (vulnFields v)[2]? = some v.description
  ∧ (∀ w : Vuln, w.description.length ≤ 95 → truncated_desc w.description = w.description) := by
  refine ⟨?_, ?_, by decide, ?_, rfl, ?_⟩
  · simp [truncated_desc, h]
  · rw [List.length_take]
    omega
  · unfold output_to_csv
    apply readCsv_writeCsv
    intro row hrow
    rcases List.mem_cons.mp hrow with rfl | hrow2
    · simp [csvHeader]
    · simp only [List.map_cons, List.map_nil, List.mem_singleton] at hrow2
      subst hrow2
      simp [vulnFields]
  · intro w hw
    simp [truncated_desc, Nat.not_lt.mpr hw]

/-- Record fixture for the C8 witness: its summary is 96 characters long. -/
def wVuln8 : Vuln :=
  ⟨"CVE-2024-3333".toList, Rat.divInt 5 1, List.replicate 96 'a',
   "May 04, 2024".toList, "https://nvd.nist.gov/vuln/detail/CVE-2024-3333".toList⟩

/-- Witness for C8: the hypothesis holds at a concrete record with a
96-character summary. -/
theorem summary_console_truncation_witness :
    95 < wVuln8.description.length ∧
    (truncated_desc wVuln8.description = wVuln8.description.take 95 ++ "...".toList
     ∧ (wVuln8.description.take 95).length = 95
     ∧ ("...".toList).length = 3
     ∧ readCsv (output_to_csv [wVuln8]) = some [csvHeader, vulnFields wVuln8]
     ∧ (vulnFields wVuln8)[2]? = some wVuln8.description
     ∧ (∀ w : Vuln, w.description.length ≤ 95 →
         truncated_desc w.description = w.description)) :=
  ⟨by decide, summary_console_truncation wVuln8 (by decide)⟩

/-! ## Claim C9 -/

/-- C9: Serializing any collection of N records to the delimited output
file (fixed header row plus one data row per record, with standard
field-quoting) and re-reading the file yields the header plus exactly N
rows whose id, score string, summary, publishedDate and detailUrl field
values are identical to the serialized ones. -/
theorem csv_roundtrip_identity (vulns : List Vuln) :
    readCsv (output_to_csv vulns) = some (csvHeader :: vulns.map vulnFields)
  ∧ (vulns.map vulnFields).length = vulns.length := by
  constructor
  · unfold output_to_csv
    apply readCsv_writeCsv
    intro row hrow
    rcases List.mem_cons.mp hrow with rfl | hrow2
    · simp [csvHeader]
    · rcases List.mem_map.mp hrow2 with ⟨v, hv, rfl⟩
      simp [vulnFields]
  · simp

/-! ## Claim C10 -/

/-- C10: A row whose score element contains the marker and parses
successfully to 0.0 is nevertheless excluded from the final record set:
inclusion is gated on the truthiness of the parsed score, so among rows
whose summary is present, exactly those whose parsed score is a value
different from 0.0 (and not `None`) produce records. -/
theorem zero_score_truthiness_gate (rh : RowHtml) :
    (extract_score rh.scoreSpan = .ok (some 0) → rowRecord rh = none)
  ∧ (∀ d : PyStr, rh.summary = some d →
      ((∃ v : Vuln, rowRecord rh = some v) ↔
        (∃ s : ℚ, extract_score rh.scoreSpan = .ok (some s) ∧ s ≠ 0))) := by
  constructor
  · intro h0
    cases hsum : rh.summary with
    | none => simp [rowRecord, extract_row, hsum]
    | some d => simp [rowRecord, extract_row, hsum, h0]
  · intro d hd
    constructor
    · rintro ⟨v, hv⟩
      rcases rowRecord_eq_some hv with ⟨_, hs, h0⟩
      exact ⟨v.score, hs, h0⟩
    · rintro ⟨s, hs, h0⟩
      refine ⟨⟨link_cve_number rh, s, d, rh.published.getD notAvailable, link_cve_url rh⟩, ?_⟩
      have hrow : extract_row rh = .ok (some ⟨link_cve_number rh, s, d,
          rh.published.getD notAvailable, link_cve_url rh⟩) := by
        simp [extract_row, hd, hs, h0]
      simp [rowRecord, hrow]

/-- Row fixture for the C10 witness: a well-formed row whose score text
parses to exactly 0.0. -/
def wRh10 : RowHtml :=
  ⟨some ("CVE-2024-4444".toList, "/vuln/detail/CVE-2024-4444".toList),
   some "Null severity entry.".toList, some "V3.1: 0.0".toList,
   some "May 05, 2024".toList⟩

/-- Witness for C10: at a concrete row parsing to score 0.0, the row is
excluded, and the inclusion gate is exactly the truthiness condition. -/
theorem zero_score_truthiness_gate_witness :
    extract_score wRh10.scoreSpan = .ok (some 0)
  ∧ rowRecord wRh10 = none
  ∧ ((∃ v : Vuln, rowRecord wRh10 = some v) ↔
      (∃ s : ℚ, extract_score wRh10.scoreSpan = .ok (some s) ∧ s ≠ 0)) :=
  ⟨by decide, (zero_score_truthiness_gate wRh10).1 (by decide),
   (zero_score_truthiness_gate wRh10).2 ("Null severity entry.".toList) rfl⟩
